import Mathlib

/-!
Shallow embedding of the world-generation / passability / movement core of
`src/main.rs` (a Bevy-based tile game).

Modelling decisions:
* `f64` noise values are modelled as rationals; the Perlin noise function of
  the external `noise` crate (constructed with seed 12) is not part of this
  repository, so it is taken as an abstract pure function `perlinGet` of the
  scaled coordinates — matching the source's `perlin.get([x / NOISE_SCALE,
  y / NOISE_SCALE])`, which is a pure `&self` method.
* The `HashMap<(i32,i32), TileType>` is modelled by its observable content, a
  function `Int × Int → Option TileType`; `insert` is pointwise update,
  exactly the HashMap's last-write-wins semantics.
* `commands.spawn(...)` of a visual tile entity is modelled as appending a
  `TileRecord` (grid position, `Tile.ttype`, material, translation z-layer)
  to an output list; the hover-recolor observers are display-only and carry
  no data relevant to the core, so they are not modelled.
* The unused `let mut rng = rand::thread_rng()` in `generate_world` is kept
  as an explicit (unused) `rng` argument, so that independence of the output
  from the ambient randomness source is a provable statement.
* The two nested `for` loops over `0..GRID_SIZE as i32` are modelled as one
  fold over the row-major enumeration `gridCells` of the 64 × 64 grid.
-/

namespace Golem

/-- `enum TileType { Passable, Unpassable }` from src/main.rs. -/
inductive TileType where
  | Passable
  | Unpassable
deriving DecidableEq, Repr

/-- `const NOISE_SCALE: f64 = 10.3;` -/
def NOISE_SCALE : ℚ := 103 / 10

/-- `const TILE_SIZE: f32 = 12.;` -/
def TILE_SIZE : ℚ := 12

/-- `const GRID_SIZE: f32 = 64.;` — always used as `GRID_SIZE as i32 = 64`. -/
def GRID_SIZE : Int := 64

/-- `struct TileMap { tiles: HashMap<(i32, i32), TileType> }`, modelled by its
observable content. -/
structure TileMap where
  tiles : Int × Int → Option TileType

/-- `TileMap::new()` — the empty map. -/
def TileMap.new : TileMap := ⟨fun _ => none⟩

/-- `TileMap::insert(pos, ttype)` — `self.tiles.insert(pos, ttype)`,
an unconditional overwrite at `pos`. -/
def TileMap.insert (m : TileMap) (pos : Int × Int) (ttype : TileType) : TileMap :=
  ⟨fun p => if p = pos then some ttype else m.tiles p⟩

/-- `TileMap::is_passable(pos)` —
`self.tiles.get(&pos).map(|t| *t == TileType::Passable).unwrap_or(false)`. -/
def TileMap.is_passable (m : TileMap) (pos : Int × Int) : Bool :=
  ((m.tiles pos).map (fun t => decide (t = TileType.Passable))).getD false

/-- Materials used when spawning visual tile entities in `generate_world`. -/
inductive Matl where
  | ground
  | rock
  | water
deriving DecidableEq, Repr

/-- One spawned visual tile entity: the `Tile { pos, ttype }` component, the
`MeshMaterial2d` material, and the z component of its translation (the depth
layer). -/
structure TileRecord where
  pos : Int × Int
  ttype : TileType
  matl : Matl
  z : ℚ
deriving DecidableEq, Repr

/-- The ground tile spawned for every cell (material `ground_matl`, z = 0.0). -/
def groundRecord (x y : Int) : TileRecord :=
  ⟨(x, y), TileType.Passable, Matl.ground, 0⟩

/-- The rock tile spawned when `noise_val > 0.3` (material `rock_matl`, z = 1.0). -/
def rockRecord (x y : Int) : TileRecord :=
  ⟨(x, y), TileType.Unpassable, Matl.rock, 1⟩

/-- The water tile spawned when `noise_val > 0.8` (material `water_matl`, z = 1.0). -/
def waterRecord (x y : Int) : TileRecord :=
  ⟨(x, y), TileType.Unpassable, Matl.water, 1⟩

/-- `perlin.get([x as f64 / NOISE_SCALE, y as f64 / NOISE_SCALE])` for the
abstract pure noise function `perlinGet` (the external crate's
`Perlin::new(12)`). -/
def sample (perlinGet : ℚ × ℚ → ℚ) (x y : Int) : ℚ :=
  perlinGet ((x : ℚ) / NOISE_SCALE, (y : ℚ) / NOISE_SCALE)

/-- The body of the inner loop of `generate_world` for one cell `(x, y)`:
spawn the ground tile and record `Passable`; if `noise_val > 0.3` spawn a rock
tile and overwrite with `Unpassable`; re-sample (the shadowing second
`let noise_val = perlin.get(...)` of the source) and if `> 0.8` spawn a water
tile and overwrite with `Unpassable`. -/
def generateCell (perlinGet : ℚ × ℚ → ℚ) (acc : TileMap × List TileRecord)
    (x y : Int) : TileMap × List TileRecord :=
  let noise_val := sample perlinGet x y
  let recs := acc.2 ++ [groundRecord x y]
  let tm := acc.1.insert (x, y) TileType.Passable
  let acc1 : TileMap × List TileRecord :=
    if noise_val > 3 / 10 then
      (tm.insert (x, y) TileType.Unpassable, recs ++ [rockRecord x y])
    else
      (tm, recs)
  let noise_val := sample perlinGet x y
  if noise_val > 8 / 10 then
    (acc1.1.insert (x, y) TileType.Unpassable, acc1.2 ++ [waterRecord x y])
  else
    acc1

/-- Row-major enumeration of the two nested loops
`for x in 0..GRID_SIZE as i32 { for y in 0..GRID_SIZE as i32 { ... } }`. -/
def gridCells : List (Int × Int) :=
  (List.range 64).flatMap (fun x => (List.range 64).map (fun y => (Int.ofNat x, Int.ofNat y)))

/-- `generate_world`: iterate every grid cell, populating the tile map and
spawning visual tile records. `rng` is the (unused) `rand::thread_rng()`
binding of the source. -/
def generate_world (perlinGet : ℚ × ℚ → ℚ) (rng : Nat) (tile_map : TileMap) :
    TileMap × List TileRecord :=
  gridCells.foldl (fun acc c => generateCell perlinGet acc c.1 c.2) (tile_map, [])

/-- `struct Player { pos: (i32, i32) }`. -/
structure Player where
  pos : Int × Int
deriving DecidableEq, Repr

/-- The four `just_pressed` edge-trigger flags consumed by `move_player` in
one evaluation (W = up, S = down, A = left, D = right). -/
structure KeyInput where
  w : Bool
  s : Bool
  a : Bool
  d : Bool
deriving DecidableEq, Repr

/-- The direction-summing prefix of `move_player`: start from `(0, 0)` and
add the unit direction of every key whose press edge fired this evaluation. -/
def computeDirection (kb : KeyInput) : Int × Int :=
  let direction : Int × Int := (0, 0)
  let direction := if kb.w then (direction.1, direction.2 + 1) else direction
  let direction := if kb.s then (direction.1, direction.2 - 1) else direction
  let direction := if kb.a then (direction.1 - 1, direction.2) else direction
  let direction := if kb.d then (direction.1 + 1, direction.2) else direction
  direction

/-- `move_player` for one evaluation: if the summed direction is nonzero and
the candidate cell is passable, commit the move and emit the new world-space
translation; otherwise leave the player unchanged and emit nothing. -/
def move_player (tile_map : TileMap) (kb : KeyInput) (player : Player) :
    Player × Option (ℚ × ℚ) :=
  let direction := computeDirection kb
  if direction ≠ (0, 0) then
    let new_pos := (player.pos.1 + direction.1, player.pos.2 + direction.2)
    if tile_map.is_passable new_pos then
      (⟨new_pos⟩, some (((new_pos.1 : ℚ)) * TILE_SIZE, ((new_pos.2 : ℚ)) * TILE_SIZE))
    else
      (player, none)
  else
    (player, none)

/-- The player's spawn coordinate in `setup`:
`(GRID_SIZE as i32 / 2, GRID_SIZE as i32 / 2) = (32, 32)`. -/
def player_start : Player := ⟨(GRID_SIZE / 2, GRID_SIZE / 2)⟩

/-- Repeated movement evaluations against a fixed tile map. -/
def run_moves (tile_map : TileMap) (pl : Player) (kbs : List KeyInput) : Player :=
  kbs.foldl (fun p kb => (move_player tile_map kb p).1) pl

/-- The grid-interval invariant: a coordinate lies in `0..64 × 0..64`. -/
def inGrid (p : Int × Int) : Prop :=
  0 ≤ p.1 ∧ p.1 < 64 ∧ 0 ≤ p.2 ∧ p.2 < 64

/-- Concrete map for the diagonal-move scenario: exactly `(0,0)` and `(1,1)`
are `Passable`, the orthogonal neighbors `(0,1)` and `(1,0)` are `Unpassable`,
every other coordinate is absent. -/
def tmDiag : TileMap :=
  (((TileMap.new.insert (0, 0) TileType.Passable).insert
      (1, 1) TileType.Passable).insert
      (0, 1) TileType.Unpassable).insert
      (1, 0) TileType.Unpassable

/-- Simultaneous up (W) and right (D) edge-triggers in one evaluation. -/
def kbUpRight : KeyInput := ⟨true, false, false, true⟩

/-- A single right (D) edge-trigger. -/
def kbRight : KeyInput := ⟨false, false, false, true⟩

/-- A single up (W) edge-trigger. -/
def kbUp : KeyInput := ⟨true, false, false, false⟩

/-- Concrete one-entry map: only `(0, 1)` is `Passable`. -/
def tmStep : TileMap := TileMap.new.insert (0, 1) TileType.Passable

/-- The constant noise function `1` (every cell above both thresholds). -/
def pgOne : ℚ × ℚ → ℚ := fun _ => 1

/-- The constant noise function `0` (every cell below both thresholds). -/
def pgZero : ℚ × ℚ → ℚ := fun _ => 0

/-- A noise function whose scaled-coordinate response is `1` exactly on the
grid column `x = 32` (scaled abscissa `32 / 10.3 = 320/103`) and `0`
elsewhere: it makes every cell of column 32 a rock and all other cells
ground. -/
def pgColumnRock : ℚ × ℚ → ℚ :=
  fun p => if p.1 = 320 / 103 then 1 else 0

/-- The tile map generated from `pgColumnRock`. -/
def tmColumnRock : TileMap := (generate_world pgColumnRock 0 TileMap.new).1

/-! ### Characterization of one generation step -/

/-- The terrain kind a single generation step leaves at its own cell:
`Unpassable` as soon as the noise value passes either threshold. -/
def cellKind (n : ℚ) : TileType :=
  if n > 8 / 10 then TileType.Unpassable
  else if n > 3 / 10 then TileType.Unpassable
  else TileType.Passable

/-- The visual records a single generation step spawns for its own cell. -/
def cellRecs (perlinGet : ℚ × ℚ → ℚ) (x y : Int) : List TileRecord :=
  groundRecord x y ::
    ((if sample perlinGet x y > 3 / 10 then [rockRecord x y] else []) ++
      (if sample perlinGet x y > 8 / 10 then [waterRecord x y] else []))

theorem generateCell_tiles_self (pg : ℚ × ℚ → ℚ) (acc : TileMap × List TileRecord)
    (x y : Int) :
    (generateCell pg acc x y).1.tiles (x, y) = some (cellKind (sample pg x y)) := by
  by_cases h8 : sample pg x y > 8 / 10 <;> by_cases h3 : sample pg x y > 3 / 10 <;>
    simp [generateCell, cellKind, TileMap.insert, h8, h3]

theorem generateCell_tiles_other (pg : ℚ × ℚ → ℚ) (acc : TileMap × List TileRecord)
    (x y : Int) (p : Int × Int) (hp : p ≠ (x, y)) :
    (generateCell pg acc x y).1.tiles p = acc.1.tiles p := by
  by_cases h8 : sample pg x y > 8 / 10 <;> by_cases h3 : sample pg x y > 3 / 10 <;>
    simp [generateCell, TileMap.insert, h8, h3, hp]

theorem generateCell_records (pg : ℚ × ℚ → ℚ) (acc : TileMap × List TileRecord)
    (x y : Int) :
    (generateCell pg acc x y).2 = acc.2 ++ cellRecs pg x y := by
  by_cases h8 : sample pg x y > 8 / 10 <;> by_cases h3 : sample pg x y > 3 / 10 <;>
    simp [generateCell, cellRecs, h8, h3]

/-! ### Fold lemmas over a list of cells -/

theorem foldl_tiles_not_mem (pg : ℚ × ℚ → ℚ) (L : List (Int × Int))
    (acc : TileMap × List TileRecord) (p : Int × Int) (hp : p ∉ L) :
    (L.foldl (fun a c => generateCell pg a c.1 c.2) acc).1.tiles p = acc.1.tiles p := by
  induction L generalizing acc with
  | nil => rfl
  | cons c t ih =>
    simp only [List.foldl_cons]
    have hpc : p ≠ c := by
      rintro rfl
      exact hp (List.mem_cons_self p t)
    rw [ih _ (fun h => hp (List.mem_cons_of_mem c h))]
    exact generateCell_tiles_other pg acc c.1 c.2 p (by simpa using hpc)

theorem foldl_tiles_mem (pg : ℚ × ℚ → ℚ) (L : List (Int × Int))
    (acc : TileMap × List TileRecord) (p : Int × Int) (hp : p ∈ L) :
    (L.foldl (fun a c => generateCell pg a c.1 c.2) acc).1.tiles p =
      some (cellKind (sample pg p.1 p.2)) := by
  induction L generalizing acc with
  | nil => cases hp
  | cons c t ih =>
    simp only [List.foldl_cons]
    by_cases hpt : p ∈ t
    · exact ih _ hpt
    · have hpc : p = c := by
        rcases List.mem_cons.mp hp with h | h
        · exact h
        · exact absurd h hpt
      subst hpc
      rw [foldl_tiles_not_mem pg t _ p hpt]
      simpa using generateCell_tiles_self pg acc p.1 p.2

theorem foldl_records (pg : ℚ × ℚ → ℚ) (L : List (Int × Int))
    (acc : TileMap × List TileRecord) :
    (L.foldl (fun a c => generateCell pg a c.1 c.2) acc).2 =
      acc.2 ++ L.flatMap (fun c => cellRecs pg c.1 c.2) := by
  induction L generalizing acc with
  | nil => simp
  | cons c t ih =>
    simp only [List.foldl_cons, List.flatMap_cons]
    rw [ih, generateCell_records, List.append_assoc]

/-! ### The grid -/

theorem mem_gridCells {p : Int × Int} :
    p ∈ gridCells ↔ 0 ≤ p.1 ∧ p.1 < 64 ∧ 0 ≤ p.2 ∧ p.2 < 64 := by
  constructor
  · intro h
    obtain ⟨x, hx, hmem⟩ := List.mem_flatMap.mp h
    obtain ⟨y, hy, heq⟩ := List.mem_map.mp hmem
    have hx' := List.mem_range.mp hx
    have hy' := List.mem_range.mp hy
    subst heq
    refine ⟨?_, ?_, ?_, ?_⟩ <;> simp only [Int.ofNat_eq_natCast] <;> omega
  · intro h
    refine List.mem_flatMap.mpr ⟨p.1.toNat, List.mem_range.mpr (by omega), ?_⟩
    refine List.mem_map.mpr ⟨p.2.toNat, List.mem_range.mpr (by omega), ?_⟩
    obtain ⟨px, py⟩ := p
    simp only [Prod.mk.injEq, Int.ofNat_eq_natCast]
    constructor <;> dsimp only at h <;> omega

/-- Full characterization of the map produced by `generate_world`. -/
theorem generate_world_tiles (pg : ℚ × ℚ → ℚ) (rng : Nat) (tm0 : TileMap)
    (p : Int × Int) :
    (generate_world pg rng tm0).1.tiles p =
      if 0 ≤ p.1 ∧ p.1 < 64 ∧ 0 ≤ p.2 ∧ p.2 < 64 then
        some (cellKind (sample pg p.1 p.2))
      else tm0.tiles p := by
  unfold generate_world
  by_cases h : 0 ≤ p.1 ∧ p.1 < 64 ∧ 0 ≤ p.2 ∧ p.2 < 64
  · rw [if_pos h]
    exact foldl_tiles_mem pg gridCells _ p (mem_gridCells.mpr h)
  · rw [if_neg h]
    exact foldl_tiles_not_mem pg gridCells _ p (fun hm => h (mem_gridCells.mp hm))

/-- Full characterization of the visual records produced by `generate_world`. -/
theorem generate_world_records (pg : ℚ × ℚ → ℚ) (rng : Nat) (tm0 : TileMap) :
    (generate_world pg rng tm0).2 = gridCells.flatMap (fun c => cellRecs pg c.1 c.2) := by
  unfold generate_world
  rw [foldl_records]
  rfl

/-! ### Passability helpers -/

theorem is_passable_eq_true (m : TileMap) (pos : Int × Int) :
    m.is_passable pos = true ↔ m.tiles pos = some TileType.Passable := by
  unfold TileMap.is_passable
  cases h : m.tiles pos with
  | none => simp
  | some t => cases t <;> simp

theorem generated_passable_inGrid (pg : ℚ × ℚ → ℚ) (rng : Nat) (p : Int × Int)
    (h : (generate_world pg rng TileMap.new).1.is_passable p = true) : inGrid p := by
  by_contra hg
  rw [is_passable_eq_true, generate_world_tiles] at h
  simp only [inGrid] at hg
  rw [if_neg hg] at h
  exact Option.noConfusion h

theorem move_player_pos_cases (tm : TileMap) (kb : KeyInput) (pl : Player) :
    (move_player tm kb pl).1.pos = pl.pos ∨
      tm.is_passable ((move_player tm kb pl).1.pos) = true := by
  unfold move_player
  by_cases hd : computeDirection kb ≠ (0, 0)
  · rw [if_pos hd]
    by_cases hp : tm.is_passable
        (pl.pos.1 + (computeDirection kb).1, pl.pos.2 + (computeDirection kb).2) = true
    · rw [if_pos hp]
      exact Or.inr hp
    · rw [if_neg hp]
      exact Or.inl rfl
  · rw [if_neg hd]
    exact Or.inl rfl

theorem run_moves_inGrid (pg : ℚ × ℚ → ℚ) (rng : Nat) (kbs : List KeyInput)
    (pl : Player) (h : inGrid pl.pos) :
    inGrid ((run_moves (generate_world pg rng TileMap.new).1 pl kbs).pos) := by
  induction kbs generalizing pl with
  | nil => exact h
  | cons kb t ih =>
    refine ih _ ?_
    rcases move_player_pos_cases (generate_world pg rng TileMap.new).1 kb pl with hc | hc
    · rwa [hc]
    · exact generated_passable_inGrid pg rng _ hc

/-! ### Claim theorems -/

/-- C1: with a nonzero summed direction `d`, the coordinate after an
evaluation equals `C + d` iff `is_passable (C + d)` is true; when it is
false the coordinate stays `C` and no position-updated side effect is
emitted (`move_player` is total, so no error can be raised). -/
theorem move_commits_iff_candidate_passable (tm : TileMap) (kb : KeyInput)
    (pl : Player) (hd : computeDirection kb ≠ (0, 0)) :
    ((move_player tm kb pl).1.pos =
        (pl.pos.1 + (computeDirection kb).1, pl.pos.2 + (computeDirection kb).2) ↔
      tm.is_passable
        (pl.pos.1 + (computeDirection kb).1, pl.pos.2 + (computeDirection kb).2) = true) ∧
    (tm.is_passable
        (pl.pos.1 + (computeDirection kb).1, pl.pos.2 + (computeDirection kb).2) = false →
      (move_player tm kb pl).1 = pl ∧ (move_player tm kb pl).2 = none) := by
  have hne : pl.pos ≠
      (pl.pos.1 + (computeDirection kb).1, pl.pos.2 + (computeDirection kb).2) := by
    intro h
    apply hd
    have h1 : pl.pos.1 = pl.pos.1 + (computeDirection kb).1 := congrArg Prod.fst h
    have h2 : pl.pos.2 = pl.pos.2 + (computeDirection kb).2 := congrArg Prod.snd h
    have e1 : (computeDirection kb).1 = 0 := by omega
    have e2 : (computeDirection kb).2 = 0 := by omega
    exact Prod.ext e1 e2
  unfold move_player
  rw [if_pos hd]
  by_cases hp : tm.is_passable
      (pl.pos.1 + (computeDirection kb).1, pl.pos.2 + (computeDirection kb).2) = true
  · rw [if_pos hp]
    exact ⟨by simpa using hp, fun hfalse => absurd hp (by simp [hfalse])⟩
  · rw [if_neg hp]
    exact ⟨⟨fun h => absurd h hne, fun h => absurd h hp⟩, fun _ => ⟨rfl, rfl⟩⟩

/-- Witness for C1: an up-press from `(0, 0)` against the map where only
`(0, 1)` is passable. -/
theorem move_commits_iff_candidate_passable_witness :
    computeDirection kbUp ≠ (0, 0) ∧
    ((((move_player tmStep kbUp ⟨(0, 0)⟩).1.pos =
        ((0 : Int) + (computeDirection kbUp).1, (0 : Int) + (computeDirection kbUp).2) ↔
      tmStep.is_passable
        ((0 : Int) + (computeDirection kbUp).1, (0 : Int) + (computeDirection kbUp).2) = true) ∧
    (tmStep.is_passable
        ((0 : Int) + (computeDirection kbUp).1, (0 : Int) + (computeDirection kbUp).2) = false →
      (move_player tmStep kbUp ⟨(0, 0)⟩).1 = ⟨(0, 0)⟩ ∧
        (move_player tmStep kbUp ⟨(0, 0)⟩).2 = none))) :=
  ⟨by decide, move_commits_iff_candidate_passable tmStep kbUp ⟨(0, 0)⟩ (by decide)⟩

/-- C2: every grid cell whose noise sample exceeds 0.8 has final TileMap kind
`Unpassable`; no such cell is `Passable` in the final map. -/
theorem water_cell_final_unpassable (pg : ℚ × ℚ → ℚ) (rng : Nat) (x y : Int)
    (hx : 0 ≤ x) (hx' : x < 64) (hy : 0 ≤ y) (hy' : y < 64)
    (hn : sample pg x y > 8 / 10) :
    (generate_world pg rng TileMap.new).1.tiles (x, y) = some TileType.Unpassable ∧
      (generate_world pg rng TileMap.new).1.tiles (x, y) ≠ some TileType.Passable := by
  have h : (generate_world pg rng TileMap.new).1.tiles (x, y) =
      some (cellKind (sample pg x y)) := by
    rw [generate_world_tiles]
    exact if_pos ⟨hx, hx', hy, hy'⟩
  rw [h]
  unfold cellKind
  rw [if_pos hn]
  exact ⟨rfl, by simp⟩

/-- Witness for C2 at cell `(0, 0)` of the constant-1 noise function. -/
theorem water_cell_final_unpassable_witness :
    (0 : Int) ≤ 0 ∧ (0 : Int) < 64 ∧ sample pgOne 0 0 > 8 / 10 ∧
    ((generate_world pgOne 0 TileMap.new).1.tiles (0, 0) = some TileType.Unpassable ∧
      (generate_world pgOne 0 TileMap.new).1.tiles (0, 0) ≠ some TileType.Passable) :=
  ⟨by decide, by decide, by norm_num [sample, pgOne],
    water_cell_final_unpassable pgOne 0 0 0 (by decide) (by decide) (by decide) (by decide)
      (by norm_num [sample, pgOne])⟩

/-- C3: every grid cell whose noise sample is at most 0.3 has final TileMap
kind `Passable`. -/
theorem low_noise_cell_final_passable (pg : ℚ × ℚ → ℚ) (rng : Nat) (x y : Int)
    (hx : 0 ≤ x) (hx' : x < 64) (hy : 0 ≤ y) (hy' : y < 64)
    (hn : sample pg x y ≤ 3 / 10) :
    (generate_world pg rng TileMap.new).1.tiles (x, y) = some TileType.Passable := by
  have h : (generate_world pg rng TileMap.new).1.tiles (x, y) =
      some (cellKind (sample pg x y)) := by
    rw [generate_world_tiles]
    exact if_pos ⟨hx, hx', hy, hy'⟩
  rw [h]
  unfold cellKind
  rw [if_neg (by intro hgt; linarith), if_neg (not_lt.mpr hn)]

/-- Witness for C3 at cell `(0, 0)` of the constant-0 noise function. -/
theorem low_noise_cell_final_passable_witness :
    (0 : Int) ≤ 0 ∧ (0 : Int) < 64 ∧ sample pgZero 0 0 ≤ 3 / 10 ∧
    (generate_world pgZero 0 TileMap.new).1.tiles (0, 0) = some TileType.Passable :=
  ⟨by decide, by decide, by norm_num [sample, pgZero],
    low_noise_cell_final_passable pgZero 0 0 0 (by decide) (by decide) (by decide) (by decide)
      (by norm_num [sample, pgZero])⟩

/-- C4: `is_passable pos` is true iff the entry at `pos` is `Passable`; it
is false for missing entries and for `Unpassable` entries alike. -/
theorem is_passable_characterization (tm : TileMap) (pos : Int × Int) :
    (tm.is_passable pos = true ↔ tm.tiles pos = some TileType.Passable) ∧
    (tm.tiles pos = none → tm.is_passable pos = false) ∧
    (tm.tiles pos = some TileType.Unpassable → tm.is_passable pos = false) := by
  refine ⟨is_passable_eq_true tm pos, ?_, ?_⟩ <;> intro h <;>
    simp [TileMap.is_passable, h]

/-- Witness for C4 on the empty map at `(0, 0)`. -/
theorem is_passable_characterization_witness :
    (TileMap.new.is_passable (0, 0) = true ↔
        TileMap.new.tiles (0, 0) = some TileType.Passable) ∧
    (TileMap.new.tiles (0, 0) = none → TileMap.new.is_passable (0, 0) = false) ∧
    (TileMap.new.tiles (0, 0) = some TileType.Unpassable →
        TileMap.new.is_passable (0, 0) = false) :=
  is_passable_characterization TileMap.new (0, 0)

/-- C5: two runs of `generate_world` with the same noise function (same seed
and scale) and grid produce identical TileMaps — and identical visual
records — whatever the ambient `thread_rng` state of each run is. -/
theorem generate_world_two_runs_identical (pg : ℚ × ℚ → ℚ) (r1 r2 : Nat)
    (tm0 : TileMap) :
    (∀ p, (generate_world pg r1 tm0).1.tiles p = (generate_world pg r2 tm0).1.tiles p) ∧
      (generate_world pg r1 tm0).2 = (generate_world pg r2 tm0).2 := by
  unfold generate_world
  exact ⟨fun _ => rfl, rfl⟩

/-- C6: the second noise sample of a cell equals the first (both are the
same pure application), so a cell that passes the water threshold (0.8)
also passes the rock threshold (0.3): its water record is spawned after its
rock record and both sit at depth layer 1. -/
theorem water_record_after_rock_record (pg : ℚ × ℚ → ℚ) (rng : Nat) (x y : Int)
    (hx : 0 ≤ x) (hx' : x < 64) (hy : 0 ≤ y) (hy' : y < 64)
    (hw : sample pg x y > 8 / 10) :
    sample pg x y > 3 / 10 ∧
    [rockRecord x y, waterRecord x y].Sublist (generate_world pg rng TileMap.new).2 ∧
    (rockRecord x y).z = 1 ∧ (waterRecord x y).z = 1 := by
  have h3 : sample pg x y > 3 / 10 := by linarith
  refine ⟨h3, ?_, rfl, rfl⟩
  rw [generate_world_records]
  have hmem : ((x, y) : Int × Int) ∈ gridCells := mem_gridCells.mpr ⟨hx, hx', hy, hy'⟩
  obtain ⟨L1, L2, hL⟩ := List.append_of_mem hmem
  rw [hL, List.flatMap_append, List.flatMap_cons]
  have hcell : cellRecs pg x y = [groundRecord x y, rockRecord x y, waterRecord x y] := by
    simp [cellRecs, h3, hw]
  refine List.Sublist.trans ?_ (List.sublist_append_right _ _)
  refine List.Sublist.trans ?_ (List.sublist_append_left _ _)
  rw [show cellRecs pg ((x, y) : Int × Int).1 ((x, y) : Int × Int).2 =
      cellRecs pg x y from rfl, hcell]
  exact List.Sublist.cons _ (List.Sublist.refl _)

/-- Witness for C6 at cell `(0, 0)` of the constant-1 noise function. -/
theorem water_record_after_rock_record_witness :
    (0 : Int) ≤ 0 ∧ (0 : Int) < 64 ∧ sample pgOne 0 0 > 8 / 10 ∧
    (sample pgOne 0 0 > 3 / 10 ∧
      [rockRecord 0 0, waterRecord 0 0].Sublist (generate_world pgOne 0 TileMap.new).2 ∧
      (rockRecord 0 0).z = 1 ∧ (waterRecord 0 0).z = 1) :=
  ⟨by decide, by decide, by norm_num [sample, pgOne],
    water_record_after_rock_record pgOne 0 0 0 (by decide) (by decide) (by decide) (by decide)
      (by norm_num [sample, pgOne])⟩

/-- C7: `insert` is an unconditional last-write-wins overwrite: a `Passable`
insert not overwritten (also not by inserts at other coordinates) makes
`is_passable` true, and a later insert at the same coordinate stores exactly
the latest kind. -/
theorem insert_last_write_wins (tm : TileMap) (pos q : Int × Int)
    (k k1 k2 : TileType) (hq : q ≠ pos) :
    (tm.insert pos TileType.Passable).is_passable pos = true ∧
    ((tm.insert pos k1).insert pos k2).tiles pos = some k2 ∧
    ((tm.insert pos TileType.Passable).insert q k).is_passable pos = true := by
  refine ⟨?_, ?_, ?_⟩ <;> simp [TileMap.insert, TileMap.is_passable, Ne.symm hq]

/-- Witness for C7: insert at `(0, 0)`, unrelated coordinate `(1, 1)`. -/
theorem insert_last_write_wins_witness :
    ((1, 1) : Int × Int) ≠ (0, 0) ∧
    ((TileMap.new.insert (0, 0) TileType.Passable).is_passable (0, 0) = true ∧
    ((TileMap.new.insert (0, 0) TileType.Unpassable).insert (0, 0) TileType.Passable).tiles
        (0, 0) = some TileType.Passable ∧
    ((TileMap.new.insert (0, 0) TileType.Passable).insert
        (1, 1) TileType.Unpassable).is_passable (0, 0) = true) :=
  ⟨by decide, insert_last_write_wins TileMap.new (0, 0) (1, 1) TileType.Unpassable
    TileType.Unpassable TileType.Passable (by decide)⟩

/-- C8: with only `(0, 0)` and `(1, 1)` passable and both orthogonal
neighbors unpassable, simultaneous up and right edge-triggers sum to
`(+1, +1)` and one evaluation moves the entity from `(0, 0)` to `(1, 1)`. -/
theorem diagonal_move_scenario :
    computeDirection kbUpRight = (1, 1) ∧
    tmDiag.is_passable (0, 0) = true ∧
    tmDiag.is_passable (1, 1) = true ∧
    tmDiag.is_passable (0, 1) = false ∧
    tmDiag.is_passable (1, 0) = false ∧
    (move_player tmDiag kbUpRight ⟨(0, 0)⟩).1.pos = (1, 1) := by
  decide

/-- C9: starting from the spawn coordinate `(32, 32)`, every sequence of
movement evaluations against a generated map keeps the player inside
`0..64 × 0..64`. -/
theorem player_remains_in_grid (pg : ℚ × ℚ → ℚ) (rng : Nat) (kbs : List KeyInput) :
    inGrid ((run_moves (generate_world pg rng TileMap.new).1 player_start kbs).pos) :=
  run_moves_inGrid pg rng kbs player_start ⟨by decide, by decide, by decide, by decide⟩

/-- C10: the entity spawns at `(32, 32)` with no passability check — under
`pgColumnRock` that cell is `Unpassable` — and a right press still moves it
to the passable `(33, 32)`: only the candidate cell is ever consulted. -/
theorem spawn_unchecked_moves_off_unpassable :
    tmColumnRock.tiles player_start.pos = some TileType.Unpassable ∧
    tmColumnRock.is_passable player_start.pos = false ∧
    (move_player tmColumnRock kbRight player_start).1.pos = (33, 32) := by
  have hs32 : sample pgColumnRock 32 32 = 1 := by
    unfold sample pgColumnRock NOISE_SCALE
    norm_num
  have hs33 : sample pgColumnRock 33 32 = 0 := by
    unfold sample pgColumnRock NOISE_SCALE
    norm_num
  have h1 : tmColumnRock.tiles ((32 : Int), (32 : Int)) = some TileType.Unpassable := by
    unfold tmColumnRock
    rw [generate_world_tiles]
    rw [if_pos (by exact ⟨by decide, by decide, by decide, by decide⟩)]
    dsimp only
    rw [hs32]
    norm_num [cellKind]
  have h2 : tmColumnRock.tiles ((33 : Int), (32 : Int)) = some TileType.Passable := by
    unfold tmColumnRock
    rw [generate_world_tiles]
    rw [if_pos (by exact ⟨by decide, by decide, by decide, by decide⟩)]
    dsimp only
    rw [hs33]
    norm_num [cellKind]
  have hpass : tmColumnRock.is_passable ((33 : Int), (32 : Int)) = true :=
    (is_passable_eq_true _ _).mpr h2
  have hnot : tmColumnRock.is_passable ((32 : Int), (32 : Int)) = false := by
    simp [TileMap.is_passable, h1]
  have hpos : player_start.pos = ((32 : Int), (32 : Int)) := by decide
  have hdir : computeDirection kbRight = ((1 : Int), (0 : Int)) := by decide
  refine ⟨by rw [hpos]; exact h1, by rw [hpos]; exact hnot, ?_⟩
  unfold move_player
  rw [if_pos (show computeDirection kbRight ≠ (0, 0) by decide)]
  rw [hpos, hdir]
  have hcand : ((((32 : Int), (32 : Int)).1 + ((1 : Int), (0 : Int)).1,
      ((32 : Int), (32 : Int)).2 + ((1 : Int), (0 : Int)).2) : Int × Int) =
      ((33 : Int), (32 : Int)) := by decide
  rw [hcand, if_pos hpass]

end Golem
